import Mathlib

/-!
Shallow embedding of the active-section resolver (`computeActiveFromEntries`)
of the portfolio single-page application, together with the second copy of the
same function found in the repository, and proofs of the specified properties.

JavaScript runtime values are modelled by `JSVal`: `undefined`, `null`,
booleans, numbers (an integer value or `NaN`), strings, plain objects (finite
association lists of named fields) and arrays.  Property access on `null` or
`undefined` throws in JavaScript; `getPropE` models this with `Except`, while
`getProp` is the total variant used by the pure embedding — the theorem for the
totality claim shows the two embeddings agree, i.e. the guards in the source
prevent any throwing access.
-/

/-- A JavaScript runtime value, as far as the resolver can distinguish them. -/
inductive JSVal where
  | undefined : JSVal
  | null : JSVal
  | boolean : Bool → JSVal
  | number : Int → JSVal
  | nan : JSVal
  | string : String → JSVal
  | object : List (String × JSVal) → JSVal
  | array : List JSVal → JSVal
deriving Repr

/-- JavaScript truthiness: `undefined`, `null`, `false`, `0`, `NaN` and the
empty string are falsy; every object and array is truthy. -/
def truthy : JSVal → Bool
  | .undefined => false
  | .null => false
  | .boolean b => b
  | .number n => n != 0
  | .nan => false
  | .string s => s.length != 0
  | .object _ => true
  | .array _ => true

/-- First binding of a field name in an object literal's field list
(`undefined` when the field is absent). -/
def lookupField : List (String × JSVal) → String → JSVal
  | [], _ => .undefined
  | (k, v) :: rest, name => if k == name then v else lookupField rest name

/-- Total property access: objects yield the bound field or `undefined`;
every non-object receiver yields `undefined` (the resolver only reads the
properties `isIntersecting`, `target` and `id`, none of which exists on a
primitive, an array, or a function wrapper). -/
def getProp (v : JSVal) (name : String) : JSVal :=
  match v with
  | .object fields => lookupField fields name
  | _ => .undefined

/-- Throwing property access, the actual JavaScript semantics: reading a
property of `null` or `undefined` raises a `TypeError`. -/
def getPropE (v : JSVal) (name : String) : Except String JSVal :=
  match v with
  | .undefined => .error "TypeError: cannot read properties of undefined"
  | .null => .error "TypeError: cannot read properties of null"
  | .object fields => .ok (lookupField fields name)
  | _ => .ok .undefined

/-- `typeof v === "string"`. -/
def isStringType : JSVal → Bool
  | .string _ => true
  | _ => false

/-- One iteration of the `for` loop of `computeActiveFromEntries` in
`src/src/App.js` (lines 12–19), acting on the running `nextId`:
`if (!entry || !entry.isIntersecting) continue;` then
`if (target && typeof target.id === "string" && target.id.length > 0)
nextId = target.id;`. -/
def step (nextId : JSVal) (entry : JSVal) : JSVal :=
  if !(truthy entry) || !(truthy (getProp entry "isIntersecting")) then
    nextId
  else
    let target := getProp entry "target"
    match truthy target, getProp target "id" with
    | true, .string s => if s.length > 0 then .string s else nextId
    | _, _ => nextId

/-- The resolver of `src/src/App.js` (lines 9–21): `let nextId = prevId;
if (!Array.isArray(entries)) return nextId;` then the indexed `for` loop
over the entries, returning the final `nextId`. -/
def computeActiveFromEntries (entries : JSVal) (prevId : JSVal) : JSVal :=
  match entries with
  | .array elems => elems.foldl step prevId
  | _ => prevId

namespace Part000

/-- Loop body of the copy of `computeActiveFromEntries` exported from
`src/unnamed/part_000` (lines 13–20); the source text is identical to the
`src/src/App.js` copy. -/
def step (nextId : JSVal) (entry : JSVal) : JSVal :=
  if !(truthy entry) || !(truthy (getProp entry "isIntersecting")) then
    nextId
  else
    let target := getProp entry "target"
    match truthy target, getProp target "id" with
    | true, .string s => if s.length > 0 then .string s else nextId
    | _, _ => nextId

/-- The copy of the resolver exported from `src/unnamed/part_000`
(lines 10–22). -/
def computeActiveFromEntries (entries : JSVal) (prevId : JSVal) : JSVal :=
  match entries with
  | .array elems => elems.foldl Part000.step prevId
  | _ => prevId

end Part000

/-- The loop body under the throwing property-access semantics, with the
source's short-circuit evaluation made explicit: `entry.isIntersecting` is
only read once `entry` is truthy, and `target.id` only once `target` is
truthy. -/
def stepE (nextId : JSVal) (entry : JSVal) : Except String JSVal :=
  if !(truthy entry) then .ok nextId
  else
    match getPropE entry "isIntersecting" with
    | .error msg => .error msg
    | .ok inter =>
      if !(truthy inter) then .ok nextId
      else
        match getPropE entry "target" with
        | .error msg => .error msg
        | .ok target =>
          if truthy target then
            match getPropE target "id" with
            | .error msg => .error msg
            | .ok tid =>
              match tid with
              | .string s =>
                if s.length > 0 then .ok (.string s) else .ok nextId
              | _ => .ok nextId
          else .ok nextId

/-- The resolver under the throwing property-access semantics:
`Array.isArray` never throws, and the loop threads `nextId` through
`stepE`. -/
def computeActiveFromEntriesE (entries : JSVal) (prevId : JSVal) :
    Except String JSVal :=
  match entries with
  | .array elems => elems.foldlM stepE prevId
  | _ => .ok prevId

/-- An entry passes every filter of the loop body: it is truthy, its
`isIntersecting` is truthy, its `target` is truthy, and `target.id` is a
string of positive length. -/
def qualifies (entry : JSVal) : Bool :=
  truthy entry && truthy (getProp entry "isIntersecting") &&
    truthy (getProp entry "target") &&
    (match getProp (getProp entry "target") "id" with
     | .string s => s.length > 0
     | _ => false)

/-- The target identifier of an entry, `entry.target.id`. -/
def entryId (entry : JSVal) : JSVal :=
  getProp (getProp entry "target") "id"

/-- Convenient constructor for a well-formed observation entry. -/
def mkEntry (inter : JSVal) (target : JSVal) : JSVal :=
  .object [("isIntersecting", inter), ("target", target)]

/-- Convenient constructor for an observed element carrying an `id`. -/
def mkTarget (tid : JSVal) : JSVal :=
  .object [("id", tid)]

/-- `v` is a non-empty JavaScript string. -/
def isNonEmptyString : JSVal → Bool
  | .string s => s.length > 0
  | _ => false

theorem step_eq (acc entry : JSVal) :
    step acc entry = if qualifies entry then entryId entry else acc := by
  unfold step qualifies entryId
  cases hte : truthy entry <;> simp
  cases hii : truthy (getProp entry "isIntersecting") <;> simp
  cases htt : truthy (getProp entry "target") <;>
    cases hid : getProp (getProp entry "target") "id" <;> simp [*]

/-- The loop threads `nextId` so that its final value is the identifier of the
last entry passing all filters, or the initial value when none does. -/
theorem foldl_step_eq (elems : List JSVal) (acc : JSVal) :
    elems.foldl step acc =
      match (elems.filter qualifies).getLast? with
      | some e => entryId e
      | none => acc := by
  induction elems using List.reverseRecOn with
  | nil => rfl
  | append_singleton l a ih =>
    rw [List.foldl_append, List.filter_append]
    by_cases hq : qualifies a
    · simp only [List.foldl_cons, List.foldl_nil, step_eq, hq, if_true,
        List.filter_cons, List.filter_nil, List.getLast?_concat]
    · simp only [List.foldl_cons, List.foldl_nil, step_eq, hq, if_false,
        List.filter_cons, List.filter_nil, Bool.false_eq_true,
        List.append_nil, ih]

/-- Restatement of `foldl_step_eq` for the resolver applied to an array. -/
theorem computeActive_array (elems : List JSVal) (prev : JSVal) :
    computeActiveFromEntries (.array elems) prev =
      match (elems.filter qualifies).getLast? with
      | some e => entryId e
      | none => prev :=
  foldl_step_eq elems prev

/-- A qualifying entry's identifier is a non-empty string. -/
theorem qualifies_entryId (e : JSVal) (h : qualifies e = true) :
    isNonEmptyString (entryId e) = true := by
  unfold qualifies at h
  unfold isNonEmptyString entryId
  rcases hid : getProp (getProp e "target") "id" with _ | _ | _ | _ | _ | s
    <;> simp [hid] at h ⊢ <;> simp_all

/-- On a truthy receiver, the throwing property access succeeds and agrees
with the total one. -/
theorem getPropE_of_truthy (v : JSVal) (name : String) (h : truthy v = true) :
    getPropE v name = .ok (getProp v name) := by
  cases v <;> simp_all [truthy, getPropE, getProp]

/-- The loop body never throws: the guards of the source dominate every
property access. -/
theorem stepE_eq (acc e : JSVal) : stepE acc e = .ok (step acc e) := by
  unfold stepE step
  cases hte : truthy e
  · simp
  · rw [getPropE_of_truthy e "isIntersecting" hte,
      getPropE_of_truthy e "target" hte]
    cases hii : truthy (getProp e "isIntersecting")
    · simp [hii]
    · cases htt : truthy (getProp e "target")
      · simp [hii, htt]
      · simp only [hii, htt, Bool.not_true, Bool.not_false, Bool.false_or,
          if_false, if_true, Bool.or_self]
        rw [getPropE_of_truthy (getProp e "target") "id" htt]
        cases hid : getProp (getProp e "target") "id" <;>
          simp [apply_ite] <;> split <;> intro h <;> omega

/-- Threading the loop through the throwing semantics succeeds and agrees
with the total semantics on every batch. -/
theorem foldlM_stepE (elems : List JSVal) (acc : JSVal) :
    elems.foldlM stepE acc = .ok (elems.foldl step acc) := by
  induction elems generalizing acc with
  | nil => rfl
  | cons x xs ih =>
    rw [List.foldlM_cons, stepE_eq, List.foldl_cons]
    simpa using ih (step acc x)

/-- C1: for every previous id and every array of entries containing at least
one qualifying entry, the resolver returns the target identifier of the last
qualifying entry in iteration order; later qualifying entries override
earlier ones within the same call. -/
theorem computeActive_last_qualifying_wins (prev : JSVal) (elems : List JSVal)
    (h : elems.filter qualifies ≠ []) :
    computeActiveFromEntries (.array elems) prev =
      entryId ((elems.filter qualifies).getLast h) := by
  rw [computeActive_array, List.getLast?_eq_getLast _ h]

/-- Witness for C1 at the spec's tie-break example batch. -/
theorem computeActive_last_qualifying_wins_witness :
    computeActiveFromEntries
        (.array [mkEntry (.boolean true) (mkTarget (.string "home")),
          mkEntry (.boolean true) (mkTarget (.string "portfolio"))])
        (.string "home") = .string "portfolio" := by
  rw [computeActive_last_qualifying_wins (.string "home")
    [mkEntry (.boolean true) (mkTarget (.string "home")),
      mkEntry (.boolean true) (mkTarget (.string "portfolio"))]
    (List.ne_nil_of_length_pos (by decide))]
  rfl

/-- C2: the resolver returns the previous id unchanged whenever `entries` is
not an array, or is an array in which no entry qualifies (in particular the
empty array). -/
theorem computeActive_noop (prev entries : JSVal)
    (h : (∀ elems, entries ≠ JSVal.array elems) ∨
      ∃ elems, entries = JSVal.array elems ∧ elems.filter qualifies = []) :
    computeActiveFromEntries entries prev = prev := by
  rcases h with h | ⟨elems, rfl, hf⟩
  · cases entries <;> first | rfl | exact absurd rfl (h _)
  · rw [computeActive_array, hf]; rfl

/-- Witness for C2 on a `null` batch, an `undefined` batch and the empty
array. -/
theorem computeActive_noop_witness :
    computeActiveFromEntries .null (.string "home") = .string "home" ∧
    computeActiveFromEntries .undefined (.string "home") = .string "home" ∧
    computeActiveFromEntries (.array []) (.string "home") = .string "home" :=
  ⟨computeActive_noop _ _ (Or.inl fun _ h => JSVal.noConfusion h),
   computeActive_noop _ _ (Or.inl fun _ h => JSVal.noConfusion h),
   computeActive_noop _ _ (Or.inr ⟨[], rfl, rfl⟩)⟩

/-- C3: inserting a non-qualifying entry anywhere in a batch leaves the
result unchanged (equivalently, removing it from a batch leaves the result
unchanged). -/
theorem computeActive_skip_nonqualifying (prev e : JSVal) (xs ys : List JSVal)
    (h : qualifies e = false) :
    computeActiveFromEntries (.array (xs ++ e :: ys)) prev =
      computeActiveFromEntries (.array (xs ++ ys)) prev := by
  show (xs ++ e :: ys).foldl step prev = (xs ++ ys).foldl step prev
  rw [List.foldl_append, List.foldl_append, List.foldl_cons, step_eq]
  simp [h]

/-- Witness for C3: a non-string (numeric) identifier inserted after a
qualifying entry does not change the result. -/
theorem computeActive_skip_nonqualifying_witness :
    computeActiveFromEntries
        (.array ([mkEntry (.boolean true) (mkTarget (.string "features"))] ++
          mkEntry (.boolean true) (mkTarget (.number 123)) :: []))
        (.string "home") =
      computeActiveFromEntries
        (.array ([mkEntry (.boolean true) (mkTarget (.string "features"))] ++
          []))
        (.string "home") :=
  computeActive_skip_nonqualifying _ _ _ _ rfl

/-- C4: the result is either the previous id itself or the identifier of a
qualifying entry of the batch; consequently a non-empty-string previous id
always yields a non-empty-string result. -/
theorem computeActive_result_provenance (entries prev : JSVal) :
    (computeActiveFromEntries entries prev = prev ∨
      ∃ elems e, entries = JSVal.array elems ∧ e ∈ elems ∧
        qualifies e = true ∧
        computeActiveFromEntries entries prev = entryId e) ∧
    (isNonEmptyString prev = true →
      isNonEmptyString (computeActiveFromEntries entries prev) = true) := by
  have hmain : computeActiveFromEntries entries prev = prev ∨
      ∃ elems e, entries = JSVal.array elems ∧ e ∈ elems ∧
        qualifies e = true ∧
        computeActiveFromEntries entries prev = entryId e := by
    cases entries with
    | array elems =>
      cases hl : (elems.filter qualifies).getLast? with
      | none => left; rw [computeActive_array, hl]
      | some e =>
        have hmem : e ∈ elems.filter qualifies :=
          List.mem_of_mem_getLast? (by simp [hl])
        right
        exact ⟨elems, e, rfl, (List.mem_filter.mp hmem).1,
          (List.mem_filter.mp hmem).2, by rw [computeActive_array, hl]⟩
    | undefined => exact Or.inl rfl
    | null => exact Or.inl rfl
    | boolean b => exact Or.inl rfl
    | number n => exact Or.inl rfl
    | nan => exact Or.inl rfl
    | string s => exact Or.inl rfl
    | object fields => exact Or.inl rfl
  refine ⟨hmain, fun hp => ?_⟩
  rcases hmain with heq | ⟨elems, e, _, _, hq, heq⟩
  · rw [heq]; exact hp
  · rw [heq]; exact qualifies_entryId e hq

/-- Witness for C4: a non-empty previous id gives a non-empty result on a
concrete qualifying batch. -/
theorem computeActive_result_provenance_witness :
    isNonEmptyString (computeActiveFromEntries
      (.array [mkEntry (.boolean true) (mkTarget (.string "features"))])
      (.string "home")) = true :=
  (computeActive_result_provenance
    (.array [mkEntry (.boolean true) (mkTarget (.string "features"))])
    (.string "home")).2 rfl

/-- C5: with two qualifying entries carrying distinct identifiers, the
second wins in one order and the first in the reversed order, so reversing
the two entries changes which one wins. -/
theorem computeActive_order_sensitive (prev a b : JSVal)
    (ha : qualifies a = true) (hb : qualifies b = true)
    (hne : entryId a ≠ entryId b) :
    computeActiveFromEntries (.array [a, b]) prev = entryId b ∧
    computeActiveFromEntries (.array [b, a]) prev = entryId a ∧
    computeActiveFromEntries (.array [a, b]) prev ≠
      computeActiveFromEntries (.array [b, a]) prev := by
  have h1 : computeActiveFromEntries (.array [a, b]) prev = entryId b := by
    simp [computeActiveFromEntries, step_eq, ha, hb]
  have h2 : computeActiveFromEntries (.array [b, a]) prev = entryId a := by
    simp [computeActiveFromEntries, step_eq, ha, hb]
  refine ⟨h1, h2, ?_⟩
  rw [h1, h2]
  exact hne.symm

/-- Witness for C5 on the `home`/`portfolio` pair. -/
theorem computeActive_order_sensitive_witness :
    computeActiveFromEntries
        (.array [mkEntry (.boolean true) (mkTarget (.string "home")),
          mkEntry (.boolean true) (mkTarget (.string "portfolio"))])
        (.string "contact") ≠
      computeActiveFromEntries
        (.array [mkEntry (.boolean true) (mkTarget (.string "portfolio")),
          mkEntry (.boolean true) (mkTarget (.string "home"))])
        (.string "contact") :=
  (computeActive_order_sensitive (.string "contact")
    (mkEntry (.boolean true) (mkTarget (.string "home")))
    (mkEntry (.boolean true) (mkTarget (.string "portfolio"))) rfl rfl
    (by
      rw [show entryId (mkEntry (.boolean true) (mkTarget (.string "home"))) =
          .string "home" from rfl,
        show entryId (mkEntry (.boolean true) (mkTarget (.string "portfolio")))
          = .string "portfolio" from rfl]
      simp)).2.2

/-- C6: transitions are idempotent — re-applying the same batch to the
result of a call yields the same result. -/
theorem computeActive_idempotent (entries prev : JSVal) :
    computeActiveFromEntries entries (computeActiveFromEntries entries prev) =
      computeActiveFromEntries entries prev := by
  cases entries with
  | array elems =>
    cases hl : (elems.filter qualifies).getLast?
    all_goals rw [computeActive_array, computeActive_array, hl]
  | undefined => rfl
  | null => rfl
  | boolean b => rfl
  | number n => rfl
  | nan => rfl
  | string s => rfl
  | object fields => rfl

/-- C7: the resolver is deterministic — two invocations on equal input pairs
return equal results (and, being a total function of its arguments in this
embedding, it has no side effects and leaves its inputs untouched). -/
theorem computeActive_deterministic (e₁ e₂ p₁ p₂ : JSVal)
    (he : e₁ = e₂) (hp : p₁ = p₂) :
    computeActiveFromEntries e₁ p₁ = computeActiveFromEntries e₂ p₂ := by
  rw [he, hp]

/-- Witness for C7 at a concrete repeated invocation. -/
theorem computeActive_deterministic_witness :
    computeActiveFromEntries
        (.array [mkEntry (.boolean true) (mkTarget (.string "blog"))])
        (.string "home") =
      computeActiveFromEntries
        (.array [mkEntry (.boolean true) (mkTarget (.string "blog"))])
        (.string "home") :=
  computeActive_deterministic _ _ _ _ rfl rfl

/-- C8: totality and absence of exceptions — under the throwing
property-access semantics the resolver returns `ok` of the total embedding's
value on every input, so no input (malformed ones included) can raise. -/
theorem computeActive_never_throws (entries prev : JSVal) :
    computeActiveFromEntriesE entries prev =
      .ok (computeActiveFromEntries entries prev) := by
  cases entries with
  | array elems => exact foldlM_stepE elems prev
  | undefined => rfl
  | null => rfl
  | boolean b => rfl
  | number n => rfl
  | nan => rfl
  | string s => rfl
  | object fields => rfl

/-- C9: the per-entry checks use truthiness, not strict boolean tests: a
truthy non-boolean `isIntersecting` together with a valid id updates the
result; any falsy entry value is skipped exactly like a `null` entry; and an
entry whose `isIntersecting` is falsy or absent is skipped. -/
theorem computeActive_truthiness_checks :
    (∀ (prev inter : JSVal) (s : String), truthy inter = true →
      s.length > 0 →
      computeActiveFromEntries
        (.array [mkEntry inter (mkTarget (.string s))]) prev = .string s) ∧
    (∀ (prev e : JSVal), truthy e = false →
      computeActiveFromEntries (.array [e]) prev =
        computeActiveFromEntries (.array [JSVal.null]) prev ∧
      computeActiveFromEntries (.array [JSVal.null]) prev = prev) ∧
    (∀ (prev e : JSVal), truthy (getProp e "isIntersecting") = false →
      computeActiveFromEntries (.array [e]) prev = prev) := by
  refine ⟨fun prev inter s hin hs => ?_, fun prev e he => ⟨?_, rfl⟩,
    fun prev e hii => ?_⟩
  · show step prev (mkEntry inter (mkTarget (.string s))) = .string s
    rw [step_eq]
    have h1 : truthy (mkEntry inter (mkTarget (.string s))) = true := rfl
    have h2 : getProp (mkEntry inter (mkTarget (.string s)))
        "isIntersecting" = inter := rfl
    have h3 : getProp (mkEntry inter (mkTarget (.string s))) "target" =
        mkTarget (.string s) := rfl
    have h4 : getProp (mkTarget (.string s)) "id" = .string s := rfl
    have h5 : truthy (mkTarget (.string s)) = true := rfl
    have hq : qualifies (mkEntry inter (mkTarget (.string s))) = true := by
      unfold qualifies
      rw [h1, h2, h3, h4, h5]
      simp [hin, hs]
    rw [hq]
    rfl
  · show step prev e = step prev JSVal.null
    rw [step_eq, step_eq]
    have hq : qualifies e = false := by
      unfold qualifies
      rw [he]
      simp
    rw [hq]
    rfl
  · show step prev e = prev
    rw [step_eq]
    have hq : qualifies e = false := by
      unfold qualifies
      rw [hii]
      simp
    rw [hq]
    rfl

/-- Witness for C9: `isIntersecting` being the number `1` updates, while the
falsy entries `false`, `0`, the empty string and `NaN`, and an entry with no
`isIntersecting` field, are all skipped. -/
theorem computeActive_truthiness_checks_witness :
    computeActiveFromEntries
        (.array [mkEntry (.number 1) (mkTarget (.string "portfolio"))])
        (.string "home") = .string "portfolio" ∧
    computeActiveFromEntries (.array [.boolean false]) (.string "home") =
      computeActiveFromEntries (.array [JSVal.null]) (.string "home") ∧
    computeActiveFromEntries (.array [.number 0]) (.string "home") =
      computeActiveFromEntries (.array [JSVal.null]) (.string "home") ∧
    computeActiveFromEntries (.array [.string ""]) (.string "home") =
      computeActiveFromEntries (.array [JSVal.null]) (.string "home") ∧
    computeActiveFromEntries (.array [JSVal.nan]) (.string "home") =
      computeActiveFromEntries (.array [JSVal.null]) (.string "home") ∧
    computeActiveFromEntries (.array [.object []]) (.string "home") =
      .string "home" :=
  ⟨computeActive_truthiness_checks.1 (.string "home") (.number 1) "portfolio"
    (by decide) (by decide),
   (computeActive_truthiness_checks.2.1 (.string "home") (.boolean false)
    rfl).1,
   (computeActive_truthiness_checks.2.1 (.string "home") (.number 0)
    (by decide)).1,
   (computeActive_truthiness_checks.2.1 (.string "home") (.string "")
    (by decide)).1,
   (computeActive_truthiness_checks.2.1 (.string "home") JSVal.nan rfl).1,
   computeActive_truthiness_checks.2.2 (.string "home") (.object []) rfl⟩

/-- C10: the copy of the resolver in `src/src/App.js` and the copy in
`src/unnamed/part_000` are extensionally equal. -/
theorem computeActive_copies_agree (entries prev : JSVal) :
    computeActiveFromEntries entries prev =
      Part000.computeActiveFromEntries entries prev := rfl
